import Mathlib

/-!
Shallow embedding of the ccgen crate (src/lib.rs and src/tok.rs): a data
model for C header files together with the token renderer that turns the
model into header text.

Conventions of the embedding:
  - Rust string slices become Lean `String`; Rust slices become Lean lists.
  - The raw pointer-plus-length pairs stored inside `Header` and `Func`
    (fields such as `funcs_ptr`/`num_funcs`) are modelled by storing the
    pointed-to list next to the element count; the accessor call
    `core::slice::from_raw_parts(ptr, len)` is modelled as taking the first
    `len` elements of the stored list (for every value built by the public
    constructors `len` is exactly the list length, so this is the identity).
  - Machine integers `u64`/`u32`/... are modelled as `Nat`, the signed ones
    as `Int`; the Rust `Display` decimal (and `LowerHex` hexadecimal)
    conversion is modelled by the fuelled digit loop `toCharsAux`.
  - The struct named `Type` in src/lib.rs is called `TypedefDecl` here
    (the spec's name for it), because `Type` is a Lean universe.
-/

/-- Header language support: enum CXX in src/lib.rs. -/
inductive DialectMode where
  | C
  | CXX
  | CXXOnly
deriving DecidableEq, Repr

/-- Function arity: enum Variadic in src/lib.rs. -/
inductive Variadic where
  | Nary
  | Variadic
deriving DecidableEq, Repr

/-- Typedef entity: struct Type in src/lib.rs (fields name, type). -/
structure TypedefDecl where
  name : String
  type : String
deriving DecidableEq, Repr

/-- Typedef constructor: Type::new in src/lib.rs. -/
def TypedefDecl.new (name type : String) : TypedefDecl :=
  ⟨name, type⟩

/-- Object-like or function-like C define entity: struct Macro in src/lib.rs
(fields tok, val). -/
structure MacroDecl where
  tok : String
  val : String
deriving DecidableEq, Repr

/-- Constructor Macro::new in src/lib.rs. -/
def MacroDecl.new (tok val : String) : MacroDecl :=
  ⟨tok, val⟩

/-- Include-guard entity: struct HeaderGuard in src/lib.rs. -/
structure HeaderGuard where
  tok : String
  val : String
deriving DecidableEq, Repr

/-- Constructor HeaderGuard::new in src/lib.rs. -/
def HeaderGuard.new (tok val : String) : HeaderGuard :=
  ⟨tok, val⟩

/-- Function declaration entity: struct Func in src/lib.rs.  The Rust
fields `params_ptr : usize` and `num_params : usize` are modelled by the
pointed-to list `params_list` plus the count `num_params`. -/
structure Func where
  out : String
  name : String
  params_list : List String
  num_params : Nat
  va : Variadic
deriving DecidableEq, Repr

/-- Constructor Func::new in src/lib.rs: stores `params.as_ptr()` (here the
list itself) and `params.len()`. -/
def Func.new (out name : String) (params : List String) (va : Variadic) : Func :=
  ⟨out, name, params, params.length, va⟩

/-- Accessor Func::params in src/lib.rs:
`slice::from_raw_parts(params_ptr, num_params)`, modelled as taking the
first `num_params` elements of the stored list. -/
def Func.params (f : Func) : List String :=
  f.params_list.take f.num_params

/-- Root entity: struct Header in src/lib.rs.  Each Rust pointer-plus-length
pair becomes a stored list plus a count, as for `Func`. -/
structure Header where
  path : Option String
  name : String
  guard : Option HeaderGuard
  funcs_list : List Func
  num_funcs : Nat
  macros_list : List MacroDecl
  num_macros : Nat
  types_list : List TypedefDecl
  num_types : Nat
  cxx : DialectMode
  extra : Option String
  post_extra : Option String
deriving DecidableEq, Repr

/-- Constructor Header::new in src/lib.rs: stores each slice pointer (here
the list itself) together with the slice length. -/
def Header.new (path : Option String) (name : String) (guard : Option HeaderGuard)
    (funcs : List Func) (macros : List MacroDecl) (types : List TypedefDecl)
    (cxx : DialectMode) (extra post_extra : Option String) : Header :=
  ⟨path, name, guard, funcs, funcs.length, macros, macros.length,
   types, types.length, cxx, extra, post_extra⟩

/-- Accessor Header::funcs in src/lib.rs (from_raw_parts, see `Func.params`). -/
def Header.funcs (h : Header) : List Func :=
  h.funcs_list.take h.num_funcs

/-- Accessor Header::macros in src/lib.rs. -/
def Header.macros (h : Header) : List MacroDecl :=
  h.macros_list.take h.num_macros

/-- Accessor Header::types in src/lib.rs. -/
def Header.types (h : Header) : List TypedefDecl :=
  h.types_list.take h.num_types

/-- Digit loop shared by the decimal and hexadecimal integer formatting of
src/tok.rs (the `write!("{}", n)` / `write!("{:x}", n)` conversions):
most-significant digit first, recursing on `n / base`.  Structural recursion
on an explicit fuel argument; fuel `n + 1` always suffices since the
argument strictly decreases. -/
def toCharsAux (base : Nat) : Nat → Nat → List Char
  | 0, _ => []
  | fuel + 1, n =>
    if n < base then [Nat.digitChar n]
    else toCharsAux base fuel (n / base) ++ [Nat.digitChar (n % base)]

/-- Decimal spelling of a natural number, as Rust `Display` prints it. -/
def decStr (n : Nat) : String :=
  String.mk (toCharsAux 10 (n + 1) n)

/-- Lowercase hexadecimal spelling of a natural number, as Rust `LowerHex`
prints it (no leading zeros, no prefix). -/
def hexStr (n : Nat) : String :=
  String.mk (toCharsAux 16 (n + 1) n)

/-- Decimal spelling of a signed value, as Rust `Display` prints it:
a leading minus sign for negative values, then the magnitude. -/
def intStr (i : Int) : String :=
  if i < 0 then "-" ++ decStr i.natAbs else decStr i.natAbs

/-- impl Token for u64 in src/tok.rs: `write!("{}UL", n)`. -/
def u64Token (n : Nat) : String :=
  decStr n ++ "UL"

/-- impl Token for u32 in src/tok.rs: `write!("{}", n)`. -/
def u32Token (n : Nat) : String :=
  decStr n

/-- impl Token for u16 in src/tok.rs. -/
def u16Token (n : Nat) : String :=
  decStr n

/-- impl Token for u8 in src/tok.rs. -/
def u8Token (n : Nat) : String :=
  decStr n

/-- impl Token for i64 in src/tok.rs: `write!("{}L", i)`. -/
def i64Token (i : Int) : String :=
  intStr i ++ "L"

/-- impl Token for i32 in src/tok.rs. -/
def i32Token (i : Int) : String :=
  intStr i

/-- impl Token for i16 in src/tok.rs. -/
def i16Token (i : Int) : String :=
  intStr i

/-- impl Token for i8 in src/tok.rs. -/
def i8Token (i : Int) : String :=
  intStr i

/-- impl Token for usize in src/tok.rs: `write!("0x{:x}UL", n)`. -/
def usizeToken (n : Nat) : String :=
  "0x" ++ hexStr n ++ "UL"

/-- impl Token for CXX in src/tok.rs. -/
def DialectMode.token : DialectMode → String
  | DialectMode.C => "#ifdef __cplusplus\n#error \"This header can only be used by C\"\n#endif\n"
  | DialectMode.CXX => "#ifdef __cplusplus\nextern \"C\" \x7b\n#endif\n"
  | DialectMode.CXXOnly => "#ifndef __cplusplus\n#error \"This header can only be used by C++\"\n#endif\n"

/-- impl EndToken for CXX in src/tok.rs: only the CXX variant closes. -/
def DialectMode.end_token : DialectMode → String
  | DialectMode.CXX => "#ifdef __cplusplus\n\x7d\n#endif\n"
  | _ => ""

/-- impl Token for HeaderGuard in src/tok.rs. -/
def HeaderGuard.token (g : HeaderGuard) : String :=
  "#ifndef " ++ g.tok ++ "\n#define " ++ g.tok ++ " " ++ g.val ++ "\n"

/-- impl EndToken for HeaderGuard in src/tok.rs. -/
def HeaderGuard.end_token (g : HeaderGuard) : String :=
  "#endif\n"

/-- impl Token for Macro in src/tok.rs. -/
def MacroDecl.token (m : MacroDecl) : String :=
  "#define " ++ m.tok ++ " " ++ m.val ++ "\n"

/-- impl Token for Type in src/tok.rs. -/
def TypedefDecl.token (t : TypedefDecl) : String :=
  "typedef " ++ t.type ++ " " ++ t.name ++ ";\n"

/-- The parameter loop of impl Token for Func in src/tok.rs:
`for i in 0..num_params: if i != 0 push ", "; push params()[i]`. -/
def paramsLoop : List String → Nat → String → String
  | [], _, out => out
  | p :: ps, i, out => paramsLoop ps (i + 1) (out ++ (if i = 0 then "" else ", ") ++ p)

/-- impl Token for Func in src/tok.rs. -/
def Func.token (f : Func) : String :=
  let out := f.out ++ " " ++ f.name ++ "("
  let out := paramsLoop f.params 0 out
  let out := out ++ (match f.va with
    | Variadic.Variadic => if f.num_params = 0 then "..." else ", ..."
    | Variadic.Nary => "")
  out ++ ");\n"

/-- A token-emission loop of impl Token for Header in src/tok.rs:
`for i in 0..n: out.push_str(xs[i].token())`. -/
def pushTokens (f : α → String) : List α → String → String
  | [], out => out
  | x :: xs, out => pushTokens f xs (out ++ f x)

/-- impl Token for Header in src/tok.rs: the full assembly sequence. -/
def Header.token (h : Header) : String :=
  let out : String := ""
  let out := match h.guard with
    | some g => out ++ g.token ++ "\n"
    | none => out
  let out := out ++ h.cxx.token ++ "\n"
  let out := pushTokens TypedefDecl.token h.types out ++ "\n"
  let out := pushTokens MacroDecl.token h.macros out ++ "\n"
  let out := pushTokens Func.token h.funcs out ++ "\n"
  let out := match h.extra with
    | some extra => out ++ extra ++ "\n"
    | none => out
  let out := out ++ h.cxx.end_token ++ "\n"
  let out := match h.guard with
    | some g => out ++ g.end_token ++ "\n"
    | none => out
  let out := match h.post_extra with
    | some p => out ++ p ++ "\n"
    | none => out
  out

/-- Modelled from the spec, section 4.2: parameter list joined by ", ". -/
def joinComma : List String → String
  | [] => ""
  | [p] => p
  | p :: ps => p ++ ", " ++ joinComma ps

/-- Modelled from the spec, section 4.2: the FunctionDecl rendering rule. -/
def specFuncRender (out name : String) (ps : List String) (va : Variadic) : String :=
  out ++ " " ++ name ++ "(" ++ joinComma ps ++
    (match va with
     | Variadic.Variadic => if ps.isEmpty then "..." else ", ..."
     | Variadic.Nary => "") ++ ");\n"

/-- Concatenation of the rendered fragments of a sequence, in order, with
no separator between them (spec section 4.3, steps 3 to 5). -/
def concatMapStr (f : α → String) : List α → String
  | [] => ""
  | x :: xs => f x ++ concatMapStr f xs

/-- An optional extra-text block: emitted verbatim plus one blank line when
present, nothing when absent (spec section 4.3, steps 6 and 9). -/
def optLine : Option String → String
  | some s => s ++ "\n"
  | none => ""

/-- Spec section 4.3, steps 1 to 5: guard open, dialect open, typedefs,
defines, functions, each followed by one blank line. -/
def frontSections (h : Header) : String :=
  (match h.guard with | some g => g.token ++ "\n" | none => "") ++
  (h.cxx.token ++ "\n") ++
  (concatMapStr TypedefDecl.token h.types ++ "\n") ++
  (concatMapStr MacroDecl.token h.macros ++ "\n") ++
  (concatMapStr Func.token h.funcs ++ "\n")

/-- Spec section 4.3, steps 7 and 8: dialect close followed by one blank
line, then guard close plus one blank line when a guard is configured. -/
def closeSections (h : Header) : String :=
  (h.cxx.end_token ++ "\n") ++
  (match h.guard with | some g => g.end_token ++ "\n" | none => "")

/-- Modelled from the spec, section 4.3: the whole assembly contract, in the
fixed section order with a blank line at each noted boundary. -/
def specAssemble (h : Header) : String :=
  frontSections h ++ optLine h.extra ++ closeSections h ++ optLine h.post_extra

/-- Numeric value of a C digit character: ASCII digits map to 0 to 9,
lowercase hex letters map to 10 to 15. -/
def charVal (c : Char) : Nat :=
  if c.toNat ≤ 57 then c.toNat - 48 else c.toNat - 87

/-- Value of a most-significant-first digit string in the given base. -/
def valOfChars (base : Nat) (cs : List Char) : Nat :=
  cs.foldl (fun a c => base * a + charVal c) 0

/-- The ten decimal digit characters. -/
def decDigitChars : List Char :=
  ['0', '1', '2', '3', '4', '5', '6', '7', '8', '9']

/-- The sixteen lowercase hexadecimal digit characters. -/
def hexDigitChars : List Char :=
  decDigitChars ++ ['a', 'b', 'c', 'd', 'e', 'f']

/-- The string s is the canonical decimal numeral of n: nonempty, made of
decimal digits only, evaluating to n, with no leading zero. -/
def isDecimalOf (s : String) (n : Nat) : Prop :=
  s.data ≠ [] ∧ (∀ c ∈ s.data, c ∈ decDigitChars) ∧ valOfChars 10 s.data = n ∧
    (n ≠ 0 → s.data.head? ≠ some '0')

/-- The string s is a lowercase hexadecimal numeral of n: nonempty, made of
lowercase hex digits only, evaluating to n, with no leading zero. -/
def isHexOf (s : String) (n : Nat) : Prop :=
  s.data ≠ [] ∧ (∀ c ∈ s.data, c ∈ hexDigitChars) ∧ valOfChars 16 s.data = n ∧
    (n ≠ 0 → s.data.head? ≠ some '0')

/-- A concrete header exercising both extra-text blocks, for witnesses. -/
def extraHeader : Header :=
  Header.new none "x.h" (some (HeaderGuard.new "G" "")) [] [] [] DialectMode.C
    (some "EXTRA") (some "POST")

/-- A concrete header, for witnesses: same observable entity fields as
`pureHeaderB`, different path and file name. -/
def pureHeaderA : Header :=
  Header.new none "a.h" none [Func.new "void" "f" [] Variadic.Nary]
    [MacroDecl.new "M" "2"] [TypedefDecl.new "t" "int"] DialectMode.CXX none none

/-- A concrete header, for witnesses: same observable entity fields as
`pureHeaderA`, different path and file name. -/
def pureHeaderB : Header :=
  Header.new (some "inc") "b.h" none [Func.new "void" "f" [] Variadic.Nary]
    [MacroDecl.new "M" "2"] [TypedefDecl.new "t" "int"] DialectMode.CXX none none

theorem pushTokens_eq (f : α → String) (xs : List α) (out : String) :
    pushTokens f xs out = out ++ concatMapStr f xs := by
  induction xs generalizing out with
  | nil => simp [pushTokens, concatMapStr, String.append_empty]
  | cons x xs ih =>
    simp [pushTokens, concatMapStr, ih, String.append_assoc]

theorem paramsLoop_pos (ps : List String) :
    ∀ (i : Nat) (out : String), i ≠ 0 →
      paramsLoop ps i out = out ++ concatMapStr (fun q => ", " ++ q) ps := by
  induction ps with
  | nil =>
    intro i out h
    simp [paramsLoop, concatMapStr, String.append_empty]
  | cons p ps ih =>
    intro i out h
    simp only [paramsLoop, if_neg h]
    rw [ih (i + 1) _ (by omega)]
    simp [concatMapStr, String.append_assoc]

theorem joinComma_cons (p : String) (ps : List String) :
    joinComma (p :: ps) = p ++ concatMapStr (fun q => ", " ++ q) ps := by
  induction ps generalizing p with
  | nil => simp [joinComma, concatMapStr, String.append_empty]
  | cons q qs ih =>
    show p ++ ", " ++ joinComma (q :: qs) = _
    rw [ih q]
    simp [concatMapStr, String.append_assoc]

theorem paramsLoop_zero (ps : List String) (out : String) :
    paramsLoop ps 0 out = out ++ joinComma ps := by
  cases ps with
  | nil => simp [paramsLoop, joinComma, String.append_empty]
  | cons p ps =>
    simp only [paramsLoop, if_pos rfl]
    rw [paramsLoop_pos ps 1 _ (by omega), joinComma_cons]
    simp [String.append_assoc, String.append_empty]

theorem func_token_eq (out name : String) (ps : List String) (va : Variadic) :
    (Func.new out name ps va).token = specFuncRender out name ps va := by
  unfold Func.token specFuncRender
  simp only [Func.new, Func.params, List.take_length]
  rw [paramsLoop_zero]
  cases va with
  | Nary => simp [String.append_assoc]
  | Variadic =>
    cases ps with
    | nil => simp [String.append_assoc]
    | cons p ps => simp [String.append_assoc]

theorem token_eq_assemble (h : Header) : h.token = specAssemble h := by
  obtain ⟨path, name, guard, fl, nf, ml, nm, tl, nt, cxx, ex, pex⟩ := h
  cases guard <;> cases ex <;> cases pex <;>
    simp [Header.token, specAssemble, frontSections, closeSections, optLine,
      pushTokens_eq, String.append_assoc, String.append_empty, String.empty_append]

/-- Claim C1: for every HeaderDescriptor the assembled header text equals
the concatenation of the sections in the fixed order of spec section 4.3
(guard open, dialect open, typedefs, defines, functions, leading
extra-text, dialect close, guard close, trailing extra-text), each noted
section followed by exactly one blank line, the blank line emitted even
when the surrounded sequence is empty; in particular the descriptor with
no guard, dialect CAndCXX, one typedef size_t / unsigned long, one define
H / 1 and the variadic function int printf(const char*, ...) assembles to
exactly that concatenation. -/
theorem c1_header_assembly :
    (∀ h : Header, h.token = specAssemble h) ∧
    (Header.new none "test.h" none
        [Func.new "int" "printf" ["const char*"] Variadic.Variadic]
        [MacroDecl.new "H" "1"] [TypedefDecl.new "size_t" "unsigned long"]
        DialectMode.CXX none none).token =
      "#ifdef __cplusplus\nextern \"C\" \x7b\n#endif\n\ntypedef unsigned long size_t;\n\n#define H 1\n\nint printf(const char*, ...);\n\n#ifdef __cplusplus\n\x7d\n#endif\n\n" :=
  ⟨token_eq_assemble, by decide⟩

/-- Claim C2: rendering a FunctionDecl produces the return type, a space,
the name, an open parenthesis, the parameters joined by ", ", then only
for a variadic arity an ellipsis preceded by ", " unless the parameter
list is empty, followed by ");" and a newline; in particular a fixed
zero-parameter function renders "()", a variadic zero-parameter function
renders "(...)", and printf renders with ", ..." after its parameter. -/
theorem c2_func_render :
    (∀ (out name : String) (ps : List String) (va : Variadic),
      (Func.new out name ps va).token = specFuncRender out name ps va) ∧
    (Func.new "void" "q" [] Variadic.Nary).token = "void q();\n" ∧
    (Func.new "void" "q" [] Variadic.Variadic).token = "void q(...);\n" ∧
    (Func.new "int" "printf" ["const char*"] Variadic.Variadic).token =
      "int printf(const char*, ...);\n" :=
  ⟨func_token_eq, by decide, by decide, by decide⟩

/-- Claim C3: each DialectMode opens with exactly its fixed fragment (the
extern-C block for CAndCXX, the respective #error blocks for the
single-language modes), and closes with the fixed fragment for CAndCXX and
the empty string for CLanguageOnly and CXXOnly. -/
theorem c3_dialect_fragments :
    DialectMode.C.token =
      "#ifdef __cplusplus\n#error \"This header can only be used by C\"\n#endif\n" ∧
    DialectMode.CXX.token =
      "#ifdef __cplusplus\nextern \"C\" \x7b\n#endif\n" ∧
    DialectMode.CXXOnly.token =
      "#ifndef __cplusplus\n#error \"This header can only be used by C++\"\n#endif\n" ∧
    DialectMode.CXX.end_token = "#ifdef __cplusplus\n\x7d\n#endif\n" ∧
    DialectMode.C.end_token = "" ∧
    DialectMode.CXXOnly.end_token = "" :=
  ⟨rfl, rfl, rfl, rfl, rfl, rfl⟩

/-- Claim C4: every HeaderGuard with token tok and value val (val possibly
empty) opens as "#ifndef " ++ tok ++ "\n#define " ++ tok ++ " " ++ val ++
"\n" with no further trailing newline, and closes as "#endif\n"; in
particular HeaderGuard("a","1") opens as "#ifndef a\n#define a 1\n". -/
theorem c4_header_guard :
    (∀ tok val : String,
      (HeaderGuard.new tok val).token =
        "#ifndef " ++ tok ++ "\n#define " ++ tok ++ " " ++ val ++ "\n" ∧
      (HeaderGuard.new tok val).end_token = "#endif\n") ∧
    (HeaderGuard.new "a" "1").token = "#ifndef a\n#define a 1\n" ∧
    (HeaderGuard.new "a" "").token = "#ifndef a\n#define a \n" ∧
    (HeaderGuard.new "a" "1").end_token = "#endif\n" :=
  ⟨fun tok val => ⟨rfl, rfl⟩, by decide, by decide, rfl⟩

/-- Claim C5: when the leading extra-text block is present it is emitted
verbatim followed by one blank line, between the function section and the
dialect close; when the trailing extra-text block is present it is emitted
verbatim followed by one blank line after the guard close; when absent,
nothing is emitted for that step. -/
theorem c5_extra_text (h : Header) (s t : String) :
    (h.extra = some s →
      h.token = frontSections h ++ s ++ "\n" ++
        (closeSections h ++ optLine h.post_extra)) ∧
    (h.extra = none →
      h.token = frontSections h ++ (closeSections h ++ optLine h.post_extra)) ∧
    (h.post_extra = some t →
      h.token = frontSections h ++ optLine h.extra ++ closeSections h ++ t ++ "\n") ∧
    (h.post_extra = none →
      h.token = frontSections h ++ optLine h.extra ++ closeSections h) := by
  refine ⟨?_, ?_, ?_, ?_⟩ <;> intro hx <;> rw [token_eq_assemble] <;>
    unfold specAssemble <;> rw [hx] <;>
    simp [optLine, String.append_assoc, String.append_empty]

/-- Witness for C5 at a concrete header carrying both extra-text blocks. -/
theorem c5_extra_text_witness :
    extraHeader.token = frontSections extraHeader ++ "EXTRA" ++ "\n" ++
      (closeSections extraHeader ++ optLine extraHeader.post_extra) ∧
    extraHeader.token = frontSections extraHeader ++ optLine extraHeader.extra ++
      closeSections extraHeader ++ "POST" ++ "\n" :=
  ⟨(c5_extra_text extraHeader "EXTRA" "POST").1 rfl,
   (c5_extra_text extraHeader "EXTRA" "POST").2.2.1 rfl⟩

/-- Claim C8: every TypedefDecl with fields name and type renders as
"typedef " ++ type ++ " " ++ name ++ ";" followed by a newline, for every
pair of caller-supplied strings including empty ones. -/
theorem c8_typedef_render :
    (∀ name type : String,
      (TypedefDecl.new name type).token = "typedef " ++ type ++ " " ++ name ++ ";\n") ∧
    (TypedefDecl.new "size_t" "unsigned long").token = "typedef unsigned long size_t;\n" ∧
    (TypedefDecl.new "" "").token = "typedef  ;\n" :=
  ⟨fun name type => rfl, by decide, by decide⟩

/-- Claim C9: rendering is deterministic and a pure function of the
entity field values: two headers agreeing on guard, dialect, typedef,
define and function sequences and both extra-text blocks render to the
same text (in particular the path and file name play no role, and the same
immutable descriptor always renders to byte-identical output). -/
theorem c9_render_pure (h1 h2 : Header)
    (hg : h1.guard = h2.guard) (hc : h1.cxx = h2.cxx)
    (ht : h1.types = h2.types) (hm : h1.macros = h2.macros)
    (hf : h1.funcs = h2.funcs) (he : h1.extra = h2.extra)
    (hp : h1.post_extra = h2.post_extra) :
    h1.token = h2.token := by
  rw [token_eq_assemble, token_eq_assemble]
  unfold specAssemble frontSections closeSections
  rw [hg, hc, ht, hm, hf, he, hp]

/-- Witness for C9: two headers differing only in path and file name
render identically. -/
theorem c9_render_pure_witness : pureHeaderA.token = pureHeaderB.token :=
  c9_render_pure pureHeaderA pureHeaderB rfl rfl rfl rfl rfl rfl rfl

/-- Claim C10: the constructors round-trip with the accessors: a Header
built by Header::new from the sequences funcs, macros and types returns
those very sequences (same length, same elements, same order) from its
funcs(), macros() and types() accessors, and a Func built by Func::new
returns the supplied parameter sequence from params(); the internal
pointer-plus-length representation is observationally the identity. -/
theorem c10_ctor_roundtrip :
    (∀ (path : Option String) (name : String) (guard : Option HeaderGuard)
       (funcs : List Func) (macros : List MacroDecl) (types : List TypedefDecl)
       (cxx : DialectMode) (extra post_extra : Option String),
      (Header.new path name guard funcs macros types cxx extra post_extra).funcs = funcs ∧
      (Header.new path name guard funcs macros types cxx extra post_extra).macros = macros ∧
      (Header.new path name guard funcs macros types cxx extra post_extra).types = types) ∧
    (∀ (out name : String) (ps : List String) (va : Variadic),
      (Func.new out name ps va).params = ps) := by
  constructor
  · intro path name guard funcs macros types cxx extra post_extra
    refine ⟨?_, ?_, ?_⟩ <;>
      simp [Header.new, Header.funcs, Header.macros, Header.types, List.take_length]
  · intro out name ps va
    simp [Func.new, Func.params, List.take_length]

theorem digitChar_mem_dec (k : Nat) (h : k < 10) : Nat.digitChar k ∈ decDigitChars := by
  interval_cases k <;> decide

theorem digitChar_mem_hex (k : Nat) (h : k < 16) : Nat.digitChar k ∈ hexDigitChars := by
  interval_cases k <;> decide

theorem charVal_digitChar (k : Nat) (h : k < 16) : charVal (Nat.digitChar k) = k := by
  interval_cases k <;> decide

theorem digitChar_ne_zero_char (k : Nat) (h1 : 0 < k) (h2 : k < 16) :
    Nat.digitChar k ≠ '0' := by
  interval_cases k <;> decide

theorem toCharsAux_ne_nil (base fuel n : Nat) (hb : 0 < base) (hf : n < fuel) :
    toCharsAux base fuel n ≠ [] := by
  cases fuel with
  | zero => omega
  | succ f =>
    unfold toCharsAux
    by_cases h : n < base
    · simp [h]
    · simp [h]

theorem toCharsAux_mem (base : Nat) (hb : 2 ≤ base) :
    ∀ fuel n, n < fuel → ∀ c ∈ toCharsAux base fuel n,
      ∃ k, k < base ∧ c = Nat.digitChar k := by
  intro fuel
  induction fuel with
  | zero => intro n h; omega
  | succ f ih =>
    intro n hf c hc
    unfold toCharsAux at hc
    by_cases h : n < base
    · simp [h] at hc
      exact ⟨n, h, hc⟩
    · simp [h] at hc
      rcases hc with hc | hc
      · have hdiv : n / base < f := by
          have h1 : n / base < n := Nat.div_lt_self (by omega) (by omega)
          omega
        exact ih (n / base) hdiv c hc
      · exact ⟨n % base, Nat.mod_lt _ (by omega), hc⟩

theorem valOfChars_append_one (base : Nat) (cs : List Char) (c : Char) :
    valOfChars base (cs ++ [c]) = base * valOfChars base cs + charVal c := by
  unfold valOfChars
  rw [List.foldl_append]
  simp

theorem toCharsAux_val (base : Nat) (hb : 2 ≤ base) (hb16 : base ≤ 16) :
    ∀ fuel n, n < fuel → valOfChars base (toCharsAux base fuel n) = n := by
  intro fuel
  induction fuel with
  | zero => intro n h; omega
  | succ f ih =>
    intro n hf
    unfold toCharsAux
    by_cases h : n < base
    · simp only [if_pos h, valOfChars, List.foldl_cons, List.foldl_nil]
      rw [charVal_digitChar n (by omega)]
      omega
    · simp only [if_neg h]
      have hdiv : n / base < f := by
        have h1 : n / base < n := Nat.div_lt_self (by omega) (by omega)
        omega
      have hmod : n % base < base := Nat.mod_lt _ (by omega)
      rw [valOfChars_append_one, ih (n / base) hdiv,
        charVal_digitChar (n % base) (by omega)]
      exact Nat.div_add_mod n base

theorem toCharsAux_head (base : Nat) (hb : 2 ≤ base) (hb16 : base ≤ 16) :
    ∀ fuel n, n < fuel → 0 < n → (toCharsAux base fuel n).head? ≠ some '0' := by
  intro fuel
  induction fuel with
  | zero => intro n h; omega
  | succ f ih =>
    intro n hf hn
    unfold toCharsAux
    by_cases h : n < base
    · simp only [if_pos h, List.head?_cons]
      intro hcontra
      exact digitChar_ne_zero_char n hn (by omega) (Option.some.inj hcontra)
    · simp only [if_neg h]
      have hdiv : n / base < f := by
        have h1 : n / base < n := Nat.div_lt_self (by omega) (by omega)
        omega
      have hpos : 0 < n / base := Nat.div_pos (by omega) (by omega)
      have hne := toCharsAux_ne_nil base f (n / base) (by omega) hdiv
      obtain ⟨a, as, hcons⟩ := List.exists_cons_of_ne_nil hne
      have hhead := ih (n / base) hdiv hpos
      rw [hcons] at hhead ⊢
      simpa using hhead

theorem decStr_isDecimalOf (n : Nat) : isDecimalOf (decStr n) n := by
  refine ⟨toCharsAux_ne_nil 10 (n + 1) n (by omega) (by omega), ?_,
    toCharsAux_val 10 (by omega) (by omega) (n + 1) n (by omega), ?_⟩
  · intro c hc
    obtain ⟨k, hk, rfl⟩ := toCharsAux_mem 10 (by omega) (n + 1) n (by omega) c hc
    exact digitChar_mem_dec k hk
  · intro hn
    exact toCharsAux_head 10 (by omega) (by omega) (n + 1) n (by omega) (by omega)

theorem hexStr_isHexOf (n : Nat) : isHexOf (hexStr n) n := by
  refine ⟨toCharsAux_ne_nil 16 (n + 1) n (by omega) (by omega), ?_,
    toCharsAux_val 16 (by omega) (by omega) (n + 1) n (by omega), ?_⟩
  · intro c hc
    obtain ⟨k, hk, rfl⟩ := toCharsAux_mem 16 (by omega) (n + 1) n (by omega) c hc
    exact digitChar_mem_hex k hk
  · intro hn
    exact toCharsAux_head 16 (by omega) (by omega) (n + 1) n (by omega) (by omega)

/-- Claim C6: a 64-bit unsigned value renders as its decimal digits plus
suffix "UL"; a 64-bit signed value as its decimal digits (with leading
minus when negative) plus suffix "L"; 32/16/8-bit signed and unsigned
values as the bare decimal digits with no suffix; a pointer-sized unsigned
value as lowercase hexadecimal digits with "0x" prefix and "UL" suffix;
in particular 12u64 renders "12UL", -12i64 renders "-12L", and address
0x1234abcd renders "0x1234abcdUL". -/
theorem c6_numeric_tokens :
    (∀ n : Nat, u64Token n = decStr n ++ "UL" ∧ isDecimalOf (decStr n) n) ∧
    (∀ i : Int, i64Token i = intStr i ++ "L") ∧
    (∀ i : Int, 0 ≤ i → intStr i = decStr i.natAbs) ∧
    (∀ i : Int, i < 0 → intStr i = "-" ++ decStr i.natAbs) ∧
    (∀ n : Nat, u32Token n = decStr n ∧ u16Token n = decStr n ∧ u8Token n = decStr n) ∧
    (∀ i : Int, i32Token i = intStr i ∧ i16Token i = intStr i ∧ i8Token i = intStr i) ∧
    (∀ n : Nat, usizeToken n = "0x" ++ hexStr n ++ "UL" ∧ isHexOf (hexStr n) n) ∧
    u64Token 12 = "12UL" ∧ i64Token (-12) = "-12L" ∧
    usizeToken 0x1234abcd = "0x1234abcdUL" := by
  refine ⟨fun n => ⟨rfl, decStr_isDecimalOf n⟩, fun i => rfl, ?_, ?_,
    fun n => ⟨rfl, rfl, rfl⟩, fun i => ⟨rfl, rfl, rfl⟩,
    fun n => ⟨rfl, hexStr_isHexOf n⟩, by decide, by decide, by decide⟩
  · intro i hi
    unfold intStr
    rw [if_neg (by omega)]
  · intro i hi
    unfold intStr
    rw [if_pos hi]

/-- Witness for C6: the sign handling of the signed decimal spelling at
the concrete values 7 and -12. -/
theorem c6_numeric_tokens_witness :
    intStr 7 = decStr (Int.natAbs 7) ∧ intStr (-12) = "-" ++ decStr (Int.natAbs (-12)) :=
  ⟨c6_numeric_tokens.2.2.1 7 (by decide), c6_numeric_tokens.2.2.2.1 (-12) (by decide)⟩
